import Mathlib

/-!
Verification of the drift-detection / retrain-decision components of the
high-propensity-prediction pipeline.

Rational numbers stand in for the floating-point values of the Python code
(exact real-number semantics of the same arithmetic); `Real.log` models
`np.log`.  SQL result sets, dataframes and numpy arrays are modelled as
Lean lists; a query or download that can fail is modelled with `Option`
(`none` = the exception branch).
-/

namespace HPP

/-! ## Numeric helpers shared by the PSI implementations -/

/-- Insert a rational into a (weakly) sorted list, keeping order.
Models the ordering step inside `np.percentile`. -/
def insertSorted (x : ℚ) : List ℚ → List ℚ
  | [] => [x]
  | y :: ys => if x ≤ y then x :: y :: ys else y :: insertSorted x ys

/-- Ascending insertion sort on rationals (sorting step of `np.percentile`). -/
def sortQ : List ℚ → List ℚ
  | [] => []
  | x :: xs => insertSorted x (sortQ xs)

/-- `np.linspace a b num`: `num` evenly spaced points from `a` to `b`
inclusive.  For `num = 1` the rational division by zero yields `a`,
matching numpy's single-point result. -/
def linspace (a b : ℚ) (num : ℕ) : List ℚ :=
  (List.range num).map (fun i : ℕ => a + (b - a) * (i : ℚ) / ((num : ℚ) - 1))

/-- `np.percentile data qs` with the default linear-interpolation method:
for each percentile `q`, the virtual index is `h = (n-1)·q/100` into the
sorted sample and the result interpolates between the neighbouring order
statistics. -/
def percentile (data : List ℚ) (qs : List ℚ) : List ℚ :=
  let s := sortQ data
  let n := s.length
  qs.map (fun q =>
    let h : ℚ := ((n : ℚ) - 1) * q / 100
    let i : ℕ := Int.toNat ⌊h⌋
    let lo := s.getD i 0
    let hi := s.getD (min (i + 1) (n - 1)) 0
    lo + (h - (i : ℚ)) * (hi - lo))

/-- `np.histogram data bins=edges`: with `m` explicit edges there are
`m-1` bins; every bin is half-open `[e_j, e_{j+1})` except the last,
which is closed `[e_{m-2}, e_{m-1}]`.  Values outside the edge range are
not counted in any bin. -/
def histogram (data : List ℚ) (edges : List ℚ) : List ℕ :=
  (List.range (edges.length - 1)).map (fun j =>
    data.countP (fun x =>
      decide (edges.getD j 0 ≤ x) &&
        (if j + 2 = edges.length then decide (x ≤ edges.getD (j + 1) 0)
         else decide (x < edges.getD (j + 1) 0))))

/-- The summand of the PSI sum in `detect_data_drift_psi.calculate_psi`:
`(p - q) * ln (p / q)` for a pair of bucket proportions. -/
noncomputable def psiTerm (pq : ℚ × ℚ) : ℝ :=
  ((pq.1 : ℝ) - (pq.2 : ℝ)) * Real.log ((pq.1 : ℝ) / (pq.2 : ℝ))

/-- `calculate_psi` from `src/components/drift.py` (inside
`detect_data_drift_psi`): percentile breakpoints from the baseline,
histogram both samples, add the smoothing constant `1e-6` to every raw
count, convert to proportions and sum `(p-q)·ln(p/q)`. -/
noncomputable def calculate_psi (expected actual : List ℚ) (buckets : ℕ := 10) : ℝ :=
  let breakpoints := percentile expected (linspace 0 100 (buckets + 1))
  let expected_counts := (histogram expected breakpoints).map (fun c : ℕ => (c : ℚ) + 1/1000000)
  let actual_counts := (histogram actual breakpoints).map (fun c : ℕ => (c : ℚ) + 1/1000000)
  let expected_percents := expected_counts.map (fun c => c / expected_counts.sum)
  let actual_percents := actual_counts.map (fun c => c / actual_counts.sum)
  ((expected_percents.zip actual_percents).map psiTerm).sum

namespace DriftDetection

/-- `np.min` of a sample (errors on empty input in numpy; `0` default here,
callers establish nonemptiness). -/
def minQ : List ℚ → ℚ
  | [] => 0
  | x :: xs => xs.foldl min x

/-- `np.max` of a sample. -/
def maxQ : List ℚ → ℚ
  | [] => 0
  | x :: xs => xs.foldl max x

/-- `scale_range` from `src/pipelines/components/drift_detection.py`:
affinely map the sample toward `[0,1]` using its own min/max, with the
`1e-5` denominator guard. -/
def scale_range (l : List ℚ) : List ℚ :=
  l.map (fun x => (x - minQ l) / (maxQ l - minQ l + 1/100000))

/-- The summand of the PSI sum in `drift_detection.calculate_psi`:
`(e - a) * ln ((e + 1e-4) / (a + 1e-4))`. -/
noncomputable def psiTermSmoothed (pq : ℚ × ℚ) : ℝ :=
  ((pq.1 : ℝ) - (pq.2 : ℝ)) *
    Real.log (((pq.1 : ℝ) + 1/10000) / ((pq.2 : ℝ) + 1/10000))

/-- `calculate_psi` from `src/pipelines/components/drift_detection.py`:
scale both samples, bin into `buckets` equal-width bins on `[0,1]`,
divide counts by the sample sizes and sum the smoothed log-ratio terms. -/
noncomputable def calculate_psi (expected actual : List ℚ) (buckets : ℕ := 10) : ℝ :=
  let e := scale_range expected
  let a := scale_range actual
  let breakpoints := linspace 0 1 (buckets + 1)
  let expected_bins := (histogram e breakpoints).map (fun c : ℕ => (c : ℚ) / (e.length : ℚ))
  let actual_bins := (histogram a breakpoints).map (fun c : ℕ => (c : ℚ) / (a.length : ℚ))
  ((expected_bins.zip actual_bins).map psiTermSmoothed).sum

/-- The guard `correlation is not None and correlation < t` of
`detect_drift`: false when the correlation is undefined. -/
def corrBelow (correlation : Option ℚ) (t : ℚ) : Bool :=
  match correlation with
  | some c => decide (c < t)
  | none => false

/-- The decision logic of `detect_drift` (steps 2 and 4 of
`src/pipelines/components/drift_detection.py`), taking the computed
signal values as inputs: the per-feature PSI scores are averaged
(`avg_psi = np.mean(psi_scores)`), and the verdict is
`STRONG` when `avg_psi > 0.2` or the score/label correlation is below
`0.1`, `WEAK` when `avg_psi > 0.1` or the correlation is below `0.3`,
otherwise `NONE`.  An undefined correlation (pandas returns `NaN` when
fewer than two pairs exist; the code also guards for `None`) makes both
correlation comparisons false, modelled by the `none` case of
`corrBelow`. -/
def detect_drift_flag (psi_scores : List ℚ) (correlation : Option ℚ) : String :=
  let avg_psi := psi_scores.sum / psi_scores.length
  if avg_psi > 1/5 ∨ corrBelow correlation (1/10) = true then
    "STRONG"
  else if avg_psi > 1/10 ∨ corrBelow correlation (3/10) = true then
    "WEAK"
  else
    "NONE"

end DriftDetection

/-! ## Retrain decision (`src/pipelines/components/check_retrain_decision.py`) -/

/-- `check_retrain_decision`: the two drift-log queries return the
`drift_recommendation` column of the latest-dated rows of each log;
`none` models the `except` branch (any failure while querying or
processing).  The component returns `"RETRAIN"` iff `"Strong"` occurs in
either result, `"SKIP"` otherwise, and `"SKIP"` on failure. -/
def check_retrain_decision (results : Option (List String × List String)) : String :=
  match results with
  | none => "SKIP"
  | some (data_result, concept_result) =>
      if "Strong" ∈ data_result ∨ "Strong" ∈ concept_result then "RETRAIN" else "SKIP"

/-! ## Concept drift (`src/components/drift.py`, `detect_concept_drift_recall_drop`) -/

/-- The baseline query of `detect_concept_drift_recall_drop`:
`SELECT AVG(recall_at_k) FROM t WHERE predict_date < current_date AND
recall_at_k IS NOT NULL LIMIT 30`.  The aggregate produces a single row,
so the trailing `LIMIT 30` applies to that one result row and has no
effect: the average ranges over ALL non-null values strictly before the
anchor date.  `AVG` of an empty set is SQL `NULL` (`none`). -/
def baselineAvg (table : List (ℕ × Option ℚ)) (currentDate : ℕ) : Option ℚ :=
  let vs := table.filterMap (fun r => if r.1 < currentDate then r.2 else none)
  if vs.isEmpty then none else some (vs.sum / vs.length)

/-- Insert a dated value into a list sorted by date descending. -/
def insertByDateDesc (x : ℕ × ℚ) : List (ℕ × ℚ) → List (ℕ × ℚ)
  | [] => [x]
  | y :: ys => if y.1 ≤ x.1 then x :: y :: ys else y :: insertByDateDesc x ys

/-- Sort dated values by date, most recent first. -/
def sortByDateDesc : List (ℕ × ℚ) → List (ℕ × ℚ)
  | [] => []
  | x :: xs => insertByDateDesc x (sortByDateDesc xs)

/-- Modelled from the spec: the baseline the spec describes — the mean of
the non-null metric values strictly before the anchor date, restricted to
the most recent 30 prior observations (most recent first, then take 30).
This is NOT what the code computes; it exists to be compared with
`baselineAvg`. -/
def baselineAvgSpec (table : List (ℕ × Option ℚ)) (currentDate : ℕ) : Option ℚ :=
  let prior := table.filterMap
    (fun r => if r.1 < currentDate then r.2.map (fun v => (r.1, v)) else none)
  let recent := ((sortByDateDesc prior).take 30).map Prod.snd
  if recent.isEmpty then none else some (recent.sum / recent.length)

/-- The current-date query of `detect_concept_drift_recall_drop`: the
`recall_at_k` of the first row at the anchor date, `none` when no row
exists (`current.empty`). -/
def currentRecall (table : List (ℕ × Option ℚ)) (currentDate : ℕ) : Option ℚ :=
  match table.filter (fun r => r.1 = currentDate) with
  | [] => none
  | r :: _ => r.2

/-- The output row of `detect_concept_drift_recall_drop`:
baseline recall, current recall, and their difference (degradation),
undefined (`None`/`NaN`, both modelled `none`) when either input is. -/
def detect_concept_drift_recall_drop (table : List (ℕ × Option ℚ)) (currentDate : ℕ) :
    Option ℚ × Option ℚ × Option ℚ :=
  let b := baselineAvg table currentDate
  let c := currentRecall table currentDate
  (b, c, match b, c with | some bv, some cv => some (bv - cv) | _, _ => none)

/-! ## Window builder (`src/pipelines/components/time_series_split.py`) -/

/-- A value of the timestamp column: either a raw (unparsed) timestamp
string, or a parsed datetime (`pd.to_datetime` output), whose numeric
value we measure in days. -/
inductive TsVal where
  | raw (s : String)
  | dt (v : ℚ)
deriving DecidableEq, Repr

/-- `pd.to_datetime` on one cell, parameterised by the library's
string-to-datetime parsing function `parse`: already-parsed datetimes
pass through unchanged. -/
def toDatetime (parse : String → ℚ) : TsVal → TsVal
  | .raw s => .dt (parse s)
  | .dt v => .dt v

/-- The datetime value of a timestamp cell (after conversion every cell
is a `dt`, so `parse` only matters on raw cells). -/
def tsv (parse : String → ℚ) : TsVal → ℚ
  | .raw s => parse s
  | .dt v => v

/-- One row of the event log: user id, timestamp, event type. -/
structure Row where
  uid : ℕ
  ts : TsVal
  ev : String
deriving DecidableEq, Repr

instance : Inhabited Row := ⟨⟨0, .dt 0, ""⟩⟩

/-- The event-log dataframe (a single object, so that in-place mutation
by the callee is observable to the caller). -/
structure Frame where
  rows : List Row
deriving DecidableEq, Repr

/-- Sort key of `df.sort_values(by=[user_id_col, timestamp_col])`. -/
def rowLe (parse : String → ℚ) (r₁ r₂ : Row) : Bool :=
  decide (r₁.uid < r₂.uid) ||
    (decide (r₁.uid = r₂.uid) && decide (tsv parse r₁.ts ≤ tsv parse r₂.ts))

/-- Insert a row into a list sorted by `rowLe`. -/
def insertRow (parse : String → ℚ) (r : Row) : List Row → List Row
  | [] => [r]
  | x :: xs => if rowLe parse r x then r :: x :: xs else x :: insertRow parse r xs

/-- `df.sort_values(by=[user_id_col, timestamp_col])` (insertion sort). -/
def sortRows (parse : String → ℚ) : List Row → List Row
  | [] => []
  | r :: rs => insertRow parse r (sortRows parse rs)

/-- One output record of the window builder: the produced sample with its
observation window boundaries, binary label and feature-window event
count (timestamps in days; `obs_end` doubles as the start of the
prediction window). -/
structure Sample where
  user_id : ℕ
  obs_start : ℚ
  obs_end : ℚ
  label : ℕ
  event_count : ℕ
deriving DecidableEq, Repr

/-- The inner loop of `generate_time_series_labels` for one user's rows:
for each row index `i`, the observation window is
`[obs_start, obs_start + observation_days)` and the prediction window is
`[obs_end, obs_end + prediction_days)` (both half-open, as in the pandas
filters with `>=` and `<`); the label is 1 iff a `"purchase"` event falls
in the prediction window, and `event_count` counts the events in the
observation window. -/
def buildSamples (parse : String → ℚ) (userRows : List Row)
    (observation_days prediction_days : ℕ) : List Sample :=
  (List.range userRows.length).map (fun i =>
    let obs_start := tsv parse (userRows.getD i default).ts
    let obs_end := obs_start + observation_days
    let pred_end := obs_end + prediction_days
    let obsW := userRows.filter (fun r =>
      decide (obs_start ≤ tsv parse r.ts) && decide (tsv parse r.ts < obs_end))
    let predW := userRows.filter (fun r =>
      decide (obs_end ≤ tsv parse r.ts) && decide (tsv parse r.ts < pred_end))
    { user_id := (userRows.getD i default).uid
      obs_start := obs_start
      obs_end := obs_end
      label := if predW.any (fun r => r.ev == "purchase") then 1 else 0
      event_count := obsW.length })

/-- `generate_time_series_labels` from
`src/pipelines/components/time_series_split.py`.  The first line,
`df[timestamp_col] = pd.to_datetime(df[timestamp_col])`, assigns the
converted column into the caller's dataframe in place; the later
`df = df.sort_values(...)` rebinds to a new frame.  The result is the
pair (caller's frame after the call, produced samples): the samples come
from grouping the sorted converted rows by user and running the rolling
window loop per group. -/
def generate_time_series_labels (parse : String → ℚ) (df : Frame)
    (prediction_window_days : ℕ := 3) (observation_window_days : ℕ := 14) :
    Frame × List Sample :=
  let df1 : Frame := ⟨df.rows.map (fun r => { r with ts := toDatetime parse r.ts })⟩
  let sorted := sortRows parse df1.rows
  let uids := (sorted.map (·.uid)).dedup
  let samples := uids.flatMap (fun u =>
    buildSamples parse (sorted.filter (fun r => r.uid == u))
      observation_window_days prediction_window_days)
  (df1, samples)

/-! ## Helper lemmas -/

/-- A list whose members all exceed `a` has sum exceeding `a · length`. -/
theorem mul_length_lt_sum {a : ℚ} {l : List ℚ} (hne : l ≠ [])
    (hall : ∀ x ∈ l, a < x) : a * l.length < l.sum := by
  induction l with
  | nil => exact absurd rfl hne
  | cons x xs ih =>
    rcases eq_or_ne xs [] with h | h
    · subst h
      simpa using hall x (by simp)
    · have hx := hall x (by simp)
      have hxs := ih h (fun y hy => hall y (by simp [hy]))
      push_cast [List.length_cons, List.sum_cons]
      nlinarith [hxs, hx]

/-- The average of a nonempty list whose members all exceed `a` exceeds
`a`. -/
theorem lt_avg_of_forall_lt {a : ℚ} {l : List ℚ} (hne : l ≠ [])
    (hall : ∀ x ∈ l, a < x) : a < l.sum / l.length := by
  have hlen : (0 : ℚ) < l.length := by
    exact_mod_cast List.length_pos.mpr hne
  rw [lt_div_iff₀ hlen]
  exact mul_length_lt_sum hne hall

/-! ## C1 — aggregation over feature stability indices -/

/-- C1 counterexample: with per-feature PSI scores `[0.3, 0, 0, 0]` and a
well-defined high correlation, one feature crosses the STRONG threshold
(`0.3 > 0.2`) yet the verdict is `NONE`, because `detect_drift` averages
the scores (`avg = 0.075`) instead of taking the maximum severity. -/
theorem detect_drift_flag_single_strong_feature_none :
    (1/5 : ℚ) < 3/10 ∧
      DriftDetection.detect_drift_flag [3/10, 0, 0, 0] (some (1/2)) = "NONE" := by
  constructor
  · norm_num
  · norm_num [DriftDetection.detect_drift_flag, DriftDetection.corrBelow]

/-- C1 amended: the verdict aggregates the feature stability indices by
their mean, not their maximum; a data-drift STRONG verdict is guaranteed
when every feature's index exceeds `0.2` (so that the mean does), not
when a single feature's does. -/
theorem detect_drift_flag_strong_of_forall_psi_gt (scores : List ℚ)
    (corr : Option ℚ) (hne : scores ≠ []) (hall : ∀ s ∈ scores, 1/5 < s) :
    DriftDetection.detect_drift_flag scores corr = "STRONG" := by
  have havg : (1/5 : ℚ) < scores.sum / scores.length :=
    lt_avg_of_forall_lt hne hall
  simp only [DriftDetection.detect_drift_flag]
  rw [if_pos (Or.inl havg)]

/-- C1 witness: all four scores exceed `0.2`, so the flag is STRONG. -/
theorem detect_drift_flag_strong_of_forall_psi_gt_witness :
    DriftDetection.detect_drift_flag [3/10, 1/4, 21/100, 2] (some (1/2)) = "STRONG" :=
  detect_drift_flag_strong_of_forall_psi_gt [3/10, 1/4, 21/100, 2] (some (1/2))
    (by decide) (by intro s hs; fin_cases hs <;> norm_num)

/-! ## C2 — concept-drift baseline window -/

/-- Concrete history: 31 non-null rows strictly before anchor date 31;
the oldest (date 0) has recall 31, dates 1..30 have recall 0. -/
def conceptTable31 : List (ℕ × Option ℚ) :=
  (0, some 31) :: (List.range 30).map (fun i => (i + 1, some 0))

/-- C2: the code's baseline averages ALL 31 prior non-null values (the
`LIMIT 30` sits after the `AVG` aggregation, which returns a single row,
so it has no effect), giving 1; the spec's most-recent-30 baseline gives
0.  The value at date 0 — outside the most recent 30 — changes the
code's baseline. -/
theorem baselineAvg_uses_all_prior_values :
    baselineAvg conceptTable31 31 = some 1 ∧
      baselineAvgSpec conceptTable31 31 = some 0 := by
  constructor
  · norm_num [baselineAvg, conceptTable31, List.range_succ, List.filterMap_cons]
  · norm_num [baselineAvgSpec, conceptTable31, List.range_succ, List.filterMap_cons,
      sortByDateDesc, insertByDateDesc]

/-! ## C4 — undefined correlation handling -/

/-- C4 counterexample: with calm PSI, an undefined correlation yields the
verdict `NONE`, equal to the verdict computed from a well-defined
high correlation — the undefined signal is silently indistinguishable
from a computed no-drift result. -/
theorem detect_drift_flag_undefined_corr_indistinguishable :
    DriftDetection.detect_drift_flag [1/20] none = "NONE" ∧
      DriftDetection.detect_drift_flag [1/20] none =
        DriftDetection.detect_drift_flag [1/20] (some (1/2)) := by
  constructor
  · norm_num [DriftDetection.detect_drift_flag, DriftDetection.corrBelow]
  · norm_num [DriftDetection.detect_drift_flag, DriftDetection.corrBelow]

/-- C4 amended: an undefined correlation contributes nothing — both
correlation guards are false, so the verdict is decided by PSI alone and
equals the verdict for any well-defined correlation of at least `0.3`;
in particular an undefined correlation can yield a plain `NONE`. -/
theorem detect_drift_flag_none_eq_defined_calm_corr (scores : List ℚ)
    (c : ℚ) (hc : 3/10 ≤ c) :
    DriftDetection.detect_drift_flag scores none =
      DriftDetection.detect_drift_flag scores (some c) := by
  have h1 : DriftDetection.corrBelow (some c) (1/10) = false := by
    simp only [DriftDetection.corrBelow, decide_eq_false_iff_not, not_lt]
    linarith
  have h3 : DriftDetection.corrBelow (some c) (3/10) = false := by
    simp only [DriftDetection.corrBelow, decide_eq_false_iff_not, not_lt]
    linarith
  simp only [DriftDetection.detect_drift_flag]
  rw [h1, h3, show DriftDetection.corrBelow none (1/10) = false from rfl,
    show DriftDetection.corrBelow none (3/10) = false from rfl]

/-- C4 witness: correlation `0.5` behaves exactly like an undefined one. -/
theorem detect_drift_flag_none_eq_defined_calm_corr_witness :
    DriftDetection.detect_drift_flag [1/20] none =
      DriftDetection.detect_drift_flag [1/20] (some (1/2)) :=
  detect_drift_flag_none_eq_defined_calm_corr [1/20] (1/2) (by norm_num)

/-! ## C5 — SKIP on missing evidence carries no marker -/

/-- C5 counterexample: on failure (no usable signals) the component
returns the plain string `"SKIP"`, equal to the value returned when both
logs report non-Strong drift — no "insufficient evidence" marker exists
in the returned value. -/
theorem check_retrain_decision_failure_indistinguishable :
    check_retrain_decision none = "SKIP" ∧
      check_retrain_decision none =
        check_retrain_decision (some (["None"], ["None"])) := by
  constructor
  · rfl
  · rfl

/-- C5 amended: when the drift logs cannot be retrieved the component
returns `"SKIP"`, and when both retrieved recommendation lists lack
`"Strong"` it returns the same `"SKIP"`; the only failure marker is a
printed log line, not part of the return value. -/
theorem check_retrain_decision_skip_no_marker (d c : List String)
    (hd : "Strong" ∉ d) (hc : "Strong" ∉ c) :
    check_retrain_decision (some (d, c)) = "SKIP" ∧
      check_retrain_decision none = "SKIP" := by
  refine ⟨?_, rfl⟩
  simp [check_retrain_decision, hd, hc]

/-- C5 witness: two all-`"None"` logs give the same `"SKIP"` as failure. -/
theorem check_retrain_decision_skip_no_marker_witness :
    check_retrain_decision (some (["None"], ["None"])) = "SKIP" ∧
      check_retrain_decision none = "SKIP" :=
  check_retrain_decision_skip_no_marker ["None"] ["None"] (by decide) (by decide)

/-! ## C10 — totality of the retrain decision -/

/-- C10: for every outcome of the drift-log queries, including the
failure case (modelled by `none`, covering the `except Exception`
branch), `check_retrain_decision` returns `"RETRAIN"` or `"SKIP"`, and
every failure maps to `"SKIP"`. -/
theorem check_retrain_decision_total (r : Option (List String × List String)) :
    (check_retrain_decision r = "RETRAIN" ∨ check_retrain_decision r = "SKIP") ∧
      check_retrain_decision none = "SKIP" := by
  refine ⟨?_, rfl⟩
  rcases r with _ | ⟨d, c⟩
  · right; rfl
  · by_cases h : "Strong" ∈ d ∨ "Strong" ∈ c
    · left; simp [check_retrain_decision, h]
    · right; simp [check_retrain_decision, h]

/-! ## PSI lemmas -/

/-- A PSI summand over two positive proportions is non-negative: the
difference and the log-ratio share a sign. -/
theorem psiTerm_nonneg (pq : ℚ × ℚ) (hp : 0 < pq.1) (hq : 0 < pq.2) :
    0 ≤ psiTerm pq := by
  obtain ⟨p, q⟩ := pq
  simp only [psiTerm]
  have hp' : (0 : ℝ) < (p : ℝ) := by exact_mod_cast hp
  have hq' : (0 : ℝ) < (q : ℝ) := by exact_mod_cast hq
  rcases le_total (q : ℝ) (p : ℝ) with h | h
  · exact mul_nonneg (by linarith) (Real.log_nonneg ((one_le_div hq').mpr h))
  · have hlog : Real.log ((p : ℝ) / (q : ℝ)) ≤ 0 :=
      Real.log_nonpos (by positivity) ((div_le_one hq').mpr h)
    rw [← neg_mul_neg]
    exact mul_nonneg (by linarith) (by linarith)

/-- A smoothed PSI summand over two non-negative bin proportions is
non-negative: `e - a` and `(e + ε) - (a + ε)` coincide, so the
difference and the smoothed log-ratio share a sign. -/
theorem psiTermSmoothed_nonneg (pq : ℚ × ℚ) (hp : 0 ≤ pq.1) (hq : 0 ≤ pq.2) :
    0 ≤ DriftDetection.psiTermSmoothed pq := by
  obtain ⟨p, q⟩ := pq
  simp only [DriftDetection.psiTermSmoothed]
  have hp' : (0 : ℝ) < (p : ℝ) + 1/10000 := by
    have : (0 : ℝ) ≤ (p : ℝ) := by exact_mod_cast hp
    linarith
  have hq' : (0 : ℝ) < (q : ℝ) + 1/10000 := by
    have : (0 : ℝ) ≤ (q : ℝ) := by exact_mod_cast hq
    linarith
  rcases le_total (q : ℝ) (p : ℝ) with h | h
  · exact mul_nonneg (by linarith)
      (Real.log_nonneg ((one_le_div hq').mpr (by linarith)))
  · have hlog : Real.log (((p : ℝ) + 1/10000) / ((q : ℝ) + 1/10000)) ≤ 0 :=
      Real.log_nonpos (by positivity) ((div_le_one hq').mpr (by linarith))
    rw [← neg_mul_neg]
    exact mul_nonneg (by linarith) (by linarith)

/-- A sum of PSI summands over positive proportions is non-negative. -/
theorem psi_sum_nonneg {ep ap : List ℚ} (hp : ∀ x ∈ ep, 0 < x)
    (hq : ∀ x ∈ ap, 0 < x) : 0 ≤ ((ep.zip ap).map psiTerm).sum := by
  apply List.sum_nonneg
  intro t ht
  rw [List.mem_map] at ht
  obtain ⟨⟨p, q⟩, hpq, rfl⟩ := ht
  obtain ⟨h1, h2⟩ := List.of_mem_zip hpq
  exact psiTerm_nonneg (p, q) (hp p h1) (hq q h2)

/-- A sum of smoothed PSI summands over non-negative proportions is
non-negative. -/
theorem psi_sum_smoothed_nonneg {ep ap : List ℚ} (hp : ∀ x ∈ ep, 0 ≤ x)
    (hq : ∀ x ∈ ap, 0 ≤ x) :
    0 ≤ ((ep.zip ap).map DriftDetection.psiTermSmoothed).sum := by
  apply List.sum_nonneg
  intro t ht
  rw [List.mem_map] at ht
  obtain ⟨⟨p, q⟩, hpq, rfl⟩ := ht
  obtain ⟨h1, h2⟩ := List.of_mem_zip hpq
  exact psiTermSmoothed_nonneg (p, q) (hp p h1) (hq q h2)

/-- Every smoothed bucket count is positive. -/
theorem mem_smoothed_pos {l : List ℕ} {x : ℚ}
    (hx : x ∈ l.map (fun c : ℕ => (c : ℚ) + 1/1000000)) : 0 < x := by
  rw [List.mem_map] at hx
  obtain ⟨c, _, rfl⟩ := hx
  positivity

/-- Normalizing a nonempty list of positive values gives positive
proportions. -/
theorem mem_normalized_pos {l : List ℚ} (hl : ∀ y ∈ l, 0 < y) (hne : l ≠ [])
    {x : ℚ} (hx : x ∈ l.map (fun c => c / l.sum)) : 0 < x := by
  rw [List.mem_map] at hx
  obtain ⟨c, hc, rfl⟩ := hx
  exact div_pos (hl c hc) (List.sum_pos l hl hne)

/-- `histogram` produces one count per bin: `edges.length - 1` counts. -/
theorem histogram_length (data edges : List ℚ) :
    (histogram data edges).length = edges.length - 1 := by
  simp [histogram]

/-- `linspace` produces `num` points. -/
theorem linspace_length (a b : ℚ) (num : ℕ) : (linspace a b num).length = num := by
  simp only [linspace, List.length_map, List.length_range]

/-- `percentile` produces one value per requested percentile. -/
theorem percentile_length (data qs : List ℚ) :
    (percentile data qs).length = qs.length := by
  simp only [percentile, List.length_map]

/-- A PSI summand over an identical pair vanishes. -/
theorem psiTerm_self (p : ℚ) : psiTerm (p, p) = 0 := by
  simp [psiTerm]

/-- The PSI sum over a list zipped with itself vanishes. -/
theorem zip_self_psiTerm_sum (l : List ℚ) : ((l.zip l).map psiTerm).sum = 0 := by
  induction l with
  | nil => rfl
  | cons x xs ih => simp [psiTerm_self, ih]

/-! ## C7 — non-negativity of both stability indices -/

/-- C7: for nonempty samples and `k ≥ 1` buckets, both PSI
implementations return a non-negative index: every summand
`(p - q)·ln(p/q)` (resp. its smoothed variant) is non-negative because
the difference and the log-ratio share a sign. -/
theorem calculate_psi_nonneg (expected actual : List ℚ) (k : ℕ)
    (he : expected ≠ []) (ha : actual ≠ []) (hk : 1 ≤ k) :
    0 ≤ calculate_psi expected actual k ∧
      0 ≤ DriftDetection.calculate_psi expected actual k := by
  constructor
  · simp only [calculate_psi]
    have hne : (histogram expected
        (percentile expected (linspace 0 100 (k + 1)))).map
          (fun c : ℕ => (c : ℚ) + 1/1000000) ≠ [] := by
      apply List.ne_nil_of_length_pos
      simp only [List.length_map, histogram_length, percentile_length, linspace_length]
      omega
    have hna : (histogram actual
        (percentile expected (linspace 0 100 (k + 1)))).map
          (fun c : ℕ => (c : ℚ) + 1/1000000) ≠ [] := by
      apply List.ne_nil_of_length_pos
      simp only [List.length_map, histogram_length, percentile_length, linspace_length]
      omega
    exact psi_sum_nonneg
      (fun x hx => mem_normalized_pos (fun y hy => mem_smoothed_pos hy) hne hx)
      (fun x hx => mem_normalized_pos (fun y hy => mem_smoothed_pos hy) hna hx)
  · simp only [DriftDetection.calculate_psi]
    apply psi_sum_smoothed_nonneg
    · intro x hx
      rw [List.mem_map] at hx
      obtain ⟨c, _, rfl⟩ := hx
      positivity
    · intro x hx
      rw [List.mem_map] at hx
      obtain ⟨c, _, rfl⟩ := hx
      positivity

/-- C7 witness: concrete nonempty samples and one bucket. -/
theorem calculate_psi_nonneg_witness :
    0 ≤ calculate_psi [0, 1] [0, 1] 1 ∧
      0 ≤ DriftDetection.calculate_psi [0, 1] [0, 1] 1 :=
  calculate_psi_nonneg [0, 1] [0, 1] 1 (by simp) (by simp) (by norm_num)

/-! ## C6 — out-of-range samples and the histogram bins -/

/-- C6 counterexample: with baseline `[0, 1]` and one bucket, the
breakpoints are `[0, 1]`; the current sample `[2]` lies above the
highest breakpoint, and its histogram counts sum to `0`, not `1`: the
sample is dropped rather than counted in the last bucket. -/
theorem histogram_drops_out_of_range_sample :
    (histogram [2] (percentile [0, 1] (linspace 0 100 (1 + 1)))).sum = 0 ∧
      ([2] : List ℚ).length = 1 := by
  constructor
  · norm_num [percentile, linspace, sortQ, insertSorted, List.range_succ, histogram]
  · rfl

/-- C6 amended: `np.histogram` with explicit bin edges drops values
outside the edge range entirely — a value below every edge, or above
every edge, contributes to no bucket count. -/
theorem histogram_out_of_range_not_counted (data edges : List ℚ) (x : ℚ)
    (h : (∀ e ∈ edges, x < e) ∨ (∀ e ∈ edges, e < x)) :
    histogram (x :: data) edges = histogram data edges := by
  simp only [histogram]
  apply List.map_congr_left
  intro j hj
  rw [List.mem_range] at hj
  have hjlt : j < edges.length := by omega
  have hjlt' : j + 1 < edges.length := by omega
  have hfalse : (decide (edges.getD j 0 ≤ x) &&
      (if j + 2 = edges.length then decide (x ≤ edges.getD (j + 1) 0)
       else decide (x < edges.getD (j + 1) 0))) = false := by
    rcases h with hlo | hhi
    · have hx : x < edges.getD j 0 := by
        rw [List.getD_eq_getElem _ _ hjlt]
        exact hlo _ (List.getElem_mem hjlt)
      rw [decide_eq_false (not_le.mpr hx), Bool.false_and]
    · have hx : edges.getD (j + 1) 0 < x := by
        rw [List.getD_eq_getElem _ _ hjlt']
        exact hhi _ (List.getElem_mem hjlt')
      rcases eq_or_ne (j + 2) edges.length with heq | hne
      · rw [if_pos heq, decide_eq_false (not_le.mpr hx), Bool.and_false]
      · rw [if_neg hne, decide_eq_false (not_lt.mpr (le_of_lt hx)), Bool.and_false]
  rw [List.countP_cons, hfalse]
  simp

/-- C6 witness: a sample above both edges leaves the histogram counts
unchanged. -/
theorem histogram_out_of_range_not_counted_witness :
    histogram (5 :: [0]) [0, 1] = histogram [0] [0, 1] :=
  histogram_out_of_range_not_counted [0] [0, 1] 5
    (Or.inr (by intro e he; fin_cases he <;> norm_num))

/-! ## C8 — no degeneracy failure in the comparator -/

/-- C8 counterexample: the baseline `[1, 1, 1]` has a single distinct
value (fewer than `k + 1 = 11`), yet `calculate_psi` does not fail: it
returns the numeric index `0` — exactly the "zero drift" reading the
spec says a degenerate baseline must not produce. -/
theorem calculate_psi_degenerate_returns_zero :
    (∀ x ∈ ([1, 1, 1] : List ℚ), x = 1) ∧ 1 < 10 + 1 ∧
      calculate_psi [1, 1, 1] [1, 1, 1] 10 = 0 := by
  refine ⟨by intro x hx; fin_cases hx <;> rfl, by norm_num, ?_⟩
  simp only [calculate_psi]
  exact zip_self_psiTerm_sum _

/-- C8 amended: no `DegenerateDistribution` failure exists in the code:
`calculate_psi` is total and returns a numeric index on every baseline,
degenerate or not; comparing any nonempty baseline against itself
(duplicate breakpoints included) yields the numeric index `0`. -/
theorem calculate_psi_self_eq_zero (e : List ℚ) (k : ℕ) (he : e ≠ []) :
    calculate_psi e e k = 0 := by
  simp only [calculate_psi]
  exact zip_self_psiTerm_sum _

/-- C8 witness: a two-value baseline against itself gives index `0`. -/
theorem calculate_psi_self_eq_zero_witness :
    calculate_psi [1, 2] [1, 2] 7 = 0 :=
  calculate_psi_self_eq_zero [1, 2] 7 (by simp)

/-! ## C3 — observation and label windows never overlap -/

/-- C3: every sample produced by the window builder satisfies
`obs_end = obs_start + observation_span`, and its feature (observation)
interval `[obs_start, obs_end)` and label (prediction) interval
`[obs_end, obs_end + prediction_span)` are disjoint: no timestamp lies
in both. -/
theorem generate_time_series_labels_windows_disjoint
    (parse : String → ℚ) (df : Frame) (p o : ℕ) (ho : 0 < o) (hp : 0 < p)
    (s : Sample) (hs : s ∈ (generate_time_series_labels parse df p o).2)
    (x : ℚ) :
    s.obs_end = s.obs_start + (o : ℚ) ∧
      ¬((s.obs_start ≤ x ∧ x < s.obs_end) ∧
        (s.obs_end ≤ x ∧ x < s.obs_end + (p : ℚ))) := by
  constructor
  · simp only [generate_time_series_labels, List.mem_flatMap] at hs
    obtain ⟨u, hu, hsu⟩ := hs
    simp only [buildSamples, List.mem_map, List.mem_range] at hsu
    obtain ⟨i, hi, rfl⟩ := hsu
    rfl
  · rintro ⟨⟨h1, h2⟩, h3, h4⟩
    exact absurd (lt_of_lt_of_le h2 h3) (lt_irrefl x)

/-- C3 witness: a one-event log with one-day spans produces the sample
`⟨1, 0, 1, 0, 1⟩`, whose windows `[0,1)` and `[1,2)` do not both contain
the timestamp `1/2`. -/
theorem generate_time_series_labels_windows_disjoint_witness :
    (Sample.mk 1 0 1 0 1).obs_end = (Sample.mk 1 0 1 0 1).obs_start + ((1 : ℕ) : ℚ) ∧
      ¬(((Sample.mk 1 0 1 0 1).obs_start ≤ (1/2 : ℚ) ∧
          (1/2 : ℚ) < (Sample.mk 1 0 1 0 1).obs_end) ∧
        ((Sample.mk 1 0 1 0 1).obs_end ≤ (1/2 : ℚ) ∧
          (1/2 : ℚ) < (Sample.mk 1 0 1 0 1).obs_end + ((1 : ℕ) : ℚ))) :=
  generate_time_series_labels_windows_disjoint (fun _ => 0)
    ⟨[⟨1, .dt 0, "view"⟩]⟩ 1 1 (by norm_num) (by norm_num)
    (Sample.mk 1 0 1 0 1)
    (by norm_num [generate_time_series_labels, sortRows, insertRow, buildSamples,
      tsv, toDatetime, List.range_succ, List.filter, List.dedup, Sample.mk.injEq])
    (1/2)

/-! ## C9 — the window builder mutates its input frame -/

/-- C9 counterexample: on a frame whose timestamp column holds a raw
string, the caller's frame after the call differs from the frame passed
in — the first line `df[timestamp_col] = pd.to_datetime(df[timestamp_col])`
converts the caller's timestamp column in place. -/
theorem generate_time_series_labels_mutates_input :
    (generate_time_series_labels (fun _ => 0)
        ⟨[⟨1, TsVal.raw "2021-01-01", "view"⟩]⟩ 3 14).1 ≠
      ⟨[⟨1, TsVal.raw "2021-01-01", "view"⟩]⟩ := by
  simp [generate_time_series_labels, toDatetime, Frame.mk.injEq, Row.mk.injEq]

/-- A row list whose timestamps are already datetimes is unchanged by the
in-place `to_datetime` conversion. -/
theorem map_toDatetime_eq_self (parse : String → ℚ) :
    ∀ l : List Row, (∀ r ∈ l, ∃ v, r.ts = TsVal.dt v) →
      l.map (fun r => { r with ts := toDatetime parse r.ts }) = l := by
  intro l
  induction l with
  | nil => intro _; rfl
  | cons r rs ih =>
    intro h
    obtain ⟨v, hv⟩ := h r (by simp)
    simp only [List.map_cons]
    rw [ih (fun r' hr' => h r' (by simp [hr']))]
    cases r
    simp_all [toDatetime]

/-- C9 amended: the only mutation of the caller's event log is the
in-place conversion of the timestamp column to datetime; an input whose
timestamp column is already datetime is returned to the caller exactly
unchanged (the sort happens on a new frame). -/
theorem generate_time_series_labels_preserves_datetime_input
    (parse : String → ℚ) (df : Frame) (p o : ℕ)
    (h : ∀ r ∈ df.rows, ∃ v, r.ts = TsVal.dt v) :
    (generate_time_series_labels parse df p o).1 = df := by
  cases df with
  | mk rows =>
    show Frame.mk (rows.map (fun r => { r with ts := toDatetime parse r.ts })) =
      Frame.mk rows
    exact congrArg Frame.mk (map_toDatetime_eq_self parse rows h)

/-- C9 witness: an already-datetime single-row frame passes through
unchanged. -/
theorem generate_time_series_labels_preserves_datetime_input_witness :
    (generate_time_series_labels (fun _ => 0)
        ⟨[⟨1, TsVal.dt 5, "view"⟩]⟩ 3 14).1 = ⟨[⟨1, TsVal.dt 5, "view"⟩]⟩ :=
  generate_time_series_labels_preserves_datetime_input (fun _ => 0)
    ⟨[⟨1, TsVal.dt 5, "view"⟩]⟩ 3 14
    (by intro r hr; rw [List.mem_singleton] at hr; subst hr; exact ⟨5, rfl⟩)

end HPP
